import Mathlib

/-!
# Verification of the Secure Atomic Mutation Substrate (file-ops-mcp)

Shallow embedding of the path-sandboxing, content-classification, atomic-write
and auto-checkpoint layers of the repository, together with theorems settling
the behavioural claims about them.

Conventions:
* Paths and file contents are modelled at the same granularity the Python code
  manipulates them: text content as `List Char` (Python `str`), raw bytes as
  `List Nat` (Python `bytes`, each entry < 256), paths both as `List Char`
  (for the character-level sanitisation of `security.sanitize_path`) and as
  `String` keys of the modelled filesystem.
* The filesystem is a map from absolute path to optional text content; the
  modelled operations receive already-validated absolute paths, mirroring the
  code where `validate_operation` produces `abs_path` before any I/O.
* Fallible I/O steps that the claims quantify over (a write raising after a
  prefix was flushed, `os.rename` refusing, a checkpoint step raising) are
  driven by explicit oracle values, so that failure injection is expressible.
-/

deriving instance DecidableEq for Except

/-- Whether an `Except` value is an error. -/
def Except.isErr : Except ε α → Bool
  | .error _ => true
  | .ok _ => false

namespace FileOps

/-- Convert a string literal to the character list the path model works on. -/
def chars (s : String) : List Char := s.data

/-! ## Path model (`src/utils/security.py`)

`sanitize_path` strips control bytes and shell metacharacters, normalises with
`os.path.normpath`, joins relative paths onto `config.abs_working_dir`, and
accepts the result iff `is_safe_path` holds, i.e. iff
`os.path.abspath(path).startswith(config.abs_working_dir)`.
The helpers below are translated from CPython's `posixpath` implementations of
`normpath`, `join`, `isabs` and `abspath`, which the source calls. -/

/-- Characters removed by `re.sub(r'[\x00-\x1F\x7F]', '', path)`. -/
def isControlChar (c : Char) : Bool := c.toNat ≤ 0x1F || c.toNat == 0x7F

/-- Characters removed by `re.sub(r'[;&|` + "`" + `$]', '', path)` (the set is
`;`, `&`, `|`, backquote, `$`). -/
def isShellMeta (c : Char) : Bool :=
  c == ';' || c == '&' || c == '|' || c == Char.ofNat 96 || c == '$'

/-- The two regex substitutions of `sanitize_path`, applied in source order. -/
def stripDangerous (s : List Char) : List Char :=
  (s.filter (fun c => !isControlChar c)).filter (fun c => !isShellMeta c)

/-- Model of `str.split('/')`: split into (possibly empty) components at every slash. -/
def splitOnSlash : List Char → List (List Char)
  | [] => [[]]
  | c :: rest =>
    match splitOnSlash rest with
    | [] => [[]]
    | comp :: comps =>
      if c = '/' then [] :: comp :: comps else (c :: comp) :: comps

/-- Model of `posixpath.normpath`: number of initial slashes kept (1, or 2 for the POSIX
double-slash special case, never 3). -/
def initialSlashes (s : List Char) : Nat :=
  if s.take 2 = ['/', '/'] ∧ s.take 3 ≠ ['/', '/', '/'] then 2
  else if s.take 1 = ['/'] then 1
  else 0

/-- One step of `posixpath.normpath`'s component loop: drop `''` and `'.'`,
keep `'..'` at the front of a relative path or after another kept `'..'`,
otherwise let `'..'` cancel the previously kept component. -/
def normStep (hasSlashes : Bool) (acc : List (List Char)) (comp : List Char) :
    List (List Char) :=
  if comp = [] ∨ comp = ['.'] then acc
  else if comp ≠ ['.', '.'] ∨ (hasSlashes = false ∧ acc = [])
      ∨ (acc ≠ [] ∧ acc.getLast? = some ['.', '.']) then
    acc ++ [comp]
  else if acc ≠ [] then acc.dropLast
  else acc

/-- Model of `posixpath.normpath`. -/
def normpath (s : List Char) : List Char :=
  if s = [] then ['.']
  else
    let slashes := initialSlashes s
    let comps := (splitOnSlash s).foldl (normStep (slashes ≠ 0)) []
    let out := List.replicate slashes '/' ++ List.intercalate ['/'] comps
    if out = [] then ['.'] else out

/-- Model of `posixpath.isabs`. -/
def isabs (s : List Char) : Bool := s.take 1 = ['/']

/-- Model of `posixpath.join` for two arguments. -/
def pathJoin (a b : List Char) : List Char :=
  if isabs b then b
  else if a = [] ∨ a.getLast? = some '/' then a ++ b
  else a ++ '/' :: b

/-- Model of `posixpath.abspath`: join onto the process working directory if relative,
then normalise. -/
def abspath (cwd p : List Char) : List Char :=
  if isabs p then normpath p else normpath (pathJoin cwd p)

/-- Model of `security.is_safe_path`: `os.path.abspath(path).startswith(config.abs_working_dir)`.
The `except` fallback to `False` has no counterpart because the model is pure. -/
def is_safe_path (cwd root p : List Char) : Bool :=
  root.isPrefixOf (abspath cwd p)

/-- Failure kinds of `sanitize_path` (`ValueError` messages in the source). -/
inductive PathError where
  | emptyPath
  | outsideSandbox
deriving DecidableEq, Repr

/-- Model of `security.sanitize_path`, with `root = config.abs_working_dir` and `cwd`
the process working directory used by `os.path.abspath`. -/
def sanitize_path (cwd root raw : List Char) : Except PathError (List Char) :=
  if raw = [] then .error .emptyPath
  else
    let p := stripDangerous raw
    let np := normpath p
    if isabs np then
      if is_safe_path cwd root np then .ok np else .error .outsideSandbox
    else
      let ap := pathJoin root np
      if is_safe_path cwd root ap then .ok ap else .error .outsideSandbox

/-- Semantic containment in the sandbox: the path is the root itself or lives
strictly below it (root followed by a separator). This is what the spec means
by "inside sandbox_root"; it is strictly stronger than the source's
string-prefix check. -/
def insideSandbox (root p : List Char) : Bool :=
  p == root || (root ++ ['/']).isPrefixOf p

/-! ## UTF-8 (CPython `str` encoding/decoding at the byte level)

The operations write text with `encoding='utf-8'` and the classifiers inspect
raw bytes, so the model needs the UTF-8 byte image of a `List Char` and a
validity check matching what `bytes.decode('utf-8')` accepts (RFC 3629:
surrogates, overlong forms and values above U+10FFFF rejected). -/

/-- UTF-8 encoding of one scalar value (a Lean `Char` is always a valid
scalar, matching a Python `str` element that survives `encode('utf-8')`). -/
def utf8EncodeChar (c : Char) : List Nat :=
  let n := c.toNat
  if n < 0x80 then [n]
  else if n < 0x800 then [0xC0 + n / 64, 0x80 + n % 64]
  else if n < 0x10000 then [0xE0 + n / 4096, 0x80 + (n / 64) % 64, 0x80 + n % 64]
  else [0xF0 + n / 262144, 0x80 + (n / 4096) % 64, 0x80 + (n / 64) % 64, 0x80 + n % 64]

/-- UTF-8 byte image of a text. -/
def utf8Encode (s : List Char) : List Nat := (s.map utf8EncodeChar).flatten

/-- Number of bytes of the UTF-8 image: what `os.path.getsize` reports for a
file holding this text. -/
def utf8ByteLength (s : List Char) : Nat := (utf8Encode s).length

/-- A UTF-8 continuation byte. -/
def utf8Cont (b : Nat) : Bool := 0x80 ≤ b && b ≤ 0xBF

/-- Whether a byte sequence is valid UTF-8, as `bytes.decode('utf-8')` checks
(a sequence truncated inside a multi-byte character is invalid).  The fuel is
an upper bound on the number of decoded characters; each step consumes at
least one byte, so `bs.length` is always enough. -/
def validUtf8Go : Nat → List Nat → Bool
  | 0, bs => bs.isEmpty
  | _ + 1, [] => true
  | fuel + 1, b :: rest =>
    if b ≤ 0x7F then validUtf8Go fuel rest
    else if 0xC2 ≤ b && b ≤ 0xDF then
      match rest with
      | b1 :: r => utf8Cont b1 && validUtf8Go fuel r
      | [] => false
    else if b == 0xE0 then
      match rest with
      | b1 :: b2 :: r => (0xA0 ≤ b1 && b1 ≤ 0xBF) && utf8Cont b2 && validUtf8Go fuel r
      | _ => false
    else if (0xE1 ≤ b && b ≤ 0xEC) || b == 0xEE || b == 0xEF then
      match rest with
      | b1 :: b2 :: r => utf8Cont b1 && utf8Cont b2 && validUtf8Go fuel r
      | _ => false
    else if b == 0xED then
      match rest with
      | b1 :: b2 :: r => (0x80 ≤ b1 && b1 ≤ 0x9F) && utf8Cont b2 && validUtf8Go fuel r
      | _ => false
    else if b == 0xF0 then
      match rest with
      | b1 :: b2 :: b3 :: r =>
        (0x90 ≤ b1 && b1 ≤ 0xBF) && utf8Cont b2 && utf8Cont b3 && validUtf8Go fuel r
      | _ => false
    else if 0xF1 ≤ b && b ≤ 0xF3 then
      match rest with
      | b1 :: b2 :: b3 :: r =>
        utf8Cont b1 && utf8Cont b2 && utf8Cont b3 && validUtf8Go fuel r
      | _ => false
    else if b == 0xF4 then
      match rest with
      | b1 :: b2 :: b3 :: r =>
        (0x80 ≤ b1 && b1 ≤ 0x8F) && utf8Cont b2 && utf8Cont b3 && validUtf8Go fuel r
      | _ => false
    else false

def validUtf8 (bs : List Nat) : Bool := validUtf8Go bs.length bs

/-! ## Content classifier (`src/utils/security.py`)

`is_text_file` is the classifier `validate_operation` actually calls to gate
text-mutating operations.  `is_text_file_robust` (with `_has_binary_signature`
and `_analyze_content_security`) is also defined in the source but is called
from nowhere.  Both are modelled on the file's name plus its byte content; the
source's "any file access error → binary" fallback has no counterpart because
the model hands the bytes over directly. -/

/-- Model of `pathlib.Path(path).name`: the final path component. -/
def pathName (p : List Char) : List Char :=
  ((splitOnSlash p).filter (fun c => c ≠ [] ∧ c ≠ ['.'])).getLastD []

/-- Model of `pathlib.Path(path).suffix`: from the last dot of the name, provided that
dot is neither the first nor the last character of the name. -/
def pathSuffix (p : List Char) : List Char :=
  let name := pathName p
  let dots := (List.range name.length).filter (fun i => name.get? i = some '.')
  match dots.getLast? with
  | some i => if 0 < i ∧ i < name.length - 1 then name.drop i else []
  | none => []

/-- Lower-cased suffix, as `Path(path).suffix.lower()`. -/
def fileExt (p : List Char) : List Char := (pathSuffix p).map Char.toLower

/-- The `binary_extensions` deny-set of `is_text_file`. -/
def binary_extensions : List (List Char) :=
  [chars ".exe", chars ".dll", chars ".so", chars ".dylib", chars ".bin",
   chars ".img", chars ".iso",
   chars ".jpg", chars ".jpeg", chars ".png", chars ".gif", chars ".bmp",
   chars ".ico", chars ".tiff",
   chars ".mp3", chars ".wav", chars ".flac", chars ".ogg", chars ".mp4",
   chars ".avi", chars ".mkv",
   chars ".pdf", chars ".doc", chars ".docx", chars ".xls", chars ".xlsx",
   chars ".ppt", chars ".pptx",
   chars ".zip", chars ".rar", chars ".7z", chars ".tar", chars ".gz",
   chars ".bz2"]

/-- Model of `mimetypes.guess_type`, modelled on CPython's built-in default type map
restricted to the extensions exercised here (lookup is by lower-cased
extension; names without a usable extension map to `None`). -/
def guess_type (p : List Char) : Option (List Char) :=
  let table : List (List Char × List Char) :=
    [(chars ".txt", chars "text/plain"),
     (chars ".md", chars "text/markdown"),
     (chars ".csv", chars "text/csv"),
     (chars ".html", chars "text/html"),
     (chars ".py", chars "text/x-python"),
     (chars ".json", chars "application/json"),
     (chars ".xml", chars "application/xml"),
     (chars ".png", chars "image/png"),
     (chars ".jpg", chars "image/jpeg"),
     (chars ".gif", chars "image/gif"),
     (chars ".wav", chars "audio/x-wav"),
     (chars ".mp4", chars "video/mp4")]
  table.lookup (fileExt p)

/-- Step 4 of `is_text_file`: the content heuristic on the first 8 KiB.
`printable / len(sample) > 0.75` is float arithmetic in the source; for
samples of at most 8192 bytes the comparison is exactly
`4 * printable > 3 * len(sample)` (the boundary value 0.75 is an exact
double and the gap `1/(4*len)` dwarfs the rounding error of the division). -/
def contentHeuristic (content : List Nat) : Bool :=
  let sample := content.take 8192
  if sample = [] then true
  else if sample.any (fun b => b == 0) then false
  else if validUtf8 sample = false then false
  else
    let printable :=
      (sample.filter (fun b => (32 ≤ b ∧ b ≤ 126) ∨ b = 9 ∨ b = 10 ∨ b = 13)).length
    4 * printable > 3 * sample.length

/-- Model of `security.is_text_file`: binary-extension deny list, then MIME guess, then
the content heuristic.  (Step 1, the text-extension allow list, is commented
out in the source.) -/
def is_text_file (path : String) (content : List Nat) : Bool :=
  if binary_extensions.contains (fileExt path.data) then false
  else
    match guess_type path.data with
    | some m =>
      if (chars "text/").isPrefixOf m then true
      else if (chars "image/").isPrefixOf m || (chars "audio/").isPrefixOf m
          || (chars "video/").isPrefixOf m then false
      else contentHeuristic content
    | none => contentHeuristic content

/-- Model of `security._has_binary_signature`: the fixed magic-number table. -/
def binary_signatures : List (List Nat) :=
  [[0x4D, 0x5A],
   [0x7F, 0x45, 0x4C, 0x46],
   [0x89, 0x50, 0x4E, 0x47],
   [0xFF, 0xD8, 0xFF],
   [0x50, 0x4B, 0x03, 0x04],
   [0x50, 0x4B, 0x05, 0x06],
   [0x50, 0x4B, 0x07, 0x08],
   [0x25, 0x50, 0x44, 0x46],
   [0x47, 0x49, 0x46, 0x38],
   [0x42, 0x4D],
   [0x00, 0x00, 0x01, 0x00],
   [0x52, 0x49, 0x46, 0x46],
   [0x1F, 0x8B, 0x08],
   [0x42, 0x5A, 0x68],
   [0x7F, 0x45, 0x4C, 0x46],
   [0xFE, 0xED, 0xFA, 0xCE],
   [0xFE, 0xED, 0xFA, 0xCF],
   [0xCA, 0xFE, 0xBA, 0xBE],
   [0xD0, 0xCF, 0x11, 0xE0]]

/-- Model of `security._has_binary_signature`. -/
def has_binary_signature (data : List Nat) : Bool :=
  binary_signatures.any (fun sig => sig.isPrefixOf data)

/-- Model of `security._analyze_content_security`, returning the score in hundredths
(0.95 → 95, threshold 0.3 → 30).  The source's float ratio comparisons
`< 0.75`, `> 0.1`, `> 0.3` are modelled by the exact integer inequalities,
which agree with the doubles for samples of at most 512 bytes. -/
def analyze_content_security (data : List Nat) : Nat :=
  if data = [] then 0
  else if data.any (fun b => b == 0) then 95
  else
    let printable_ascii := (data.filter (fun b => 32 ≤ b ∧ b ≤ 126)).length
    let whitespace :=
      (data.filter (fun b => ¬(32 ≤ b ∧ b ≤ 126) ∧ (b = 9 ∨ b = 10 ∨ b = 13 ∨ b = 32))).length
    let control_chars :=
      (data.filter (fun b => ¬(32 ≤ b ∧ b ≤ 126) ∧ ¬(b = 9 ∨ b = 10 ∨ b = 13 ∨ b = 32) ∧ b < 32)).length
    let high_bytes :=
      (data.filter (fun b => ¬(32 ≤ b ∧ b ≤ 126) ∧ b > 126)).length
    let total := data.length
    if 4 * (printable_ascii + whitespace) < 3 * total then 80
    else if 10 * control_chars > total then 70
    else if 10 * high_bytes > 3 * total then 60
    else 10

/-- Maximum characters `f.read(8192)` pulls in layer 5 of
`is_text_file_robust`. -/
def robustReadLimit : Nat := 8192

/-- Layer 5 of `is_text_file_robust`: decoding the file as UTF-8 succeeds for
at least the first `budget` characters (an invalid sequence reached before the
budget is exhausted raises `UnicodeDecodeError`). -/
def utf8ReadOk (budget : Nat) : List Nat → Bool
  | [] => true
  | b :: rest =>
    match budget with
    | 0 => true
    | budget' + 1 =>
      if b ≤ 0x7F then utf8ReadOk budget' rest
      else if 0xC2 ≤ b && b ≤ 0xDF then
        match rest with
        | b1 :: r => utf8Cont b1 && utf8ReadOk budget' r
        | [] => false
      else if b == 0xE0 then
        match rest with
        | b1 :: b2 :: r => (0xA0 ≤ b1 && b1 ≤ 0xBF) && utf8Cont b2 && utf8ReadOk budget' r
        | _ => false
      else if (0xE1 ≤ b && b ≤ 0xEC) || b == 0xEE || b == 0xEF then
        match rest with
        | b1 :: b2 :: r => utf8Cont b1 && utf8Cont b2 && utf8ReadOk budget' r
        | _ => false
      else if b == 0xED then
        match rest with
        | b1 :: b2 :: r => (0x80 ≤ b1 && b1 ≤ 0x9F) && utf8Cont b2 && utf8ReadOk budget' r
        | _ => false
      else if b == 0xF0 then
        match rest with
        | b1 :: b2 :: b3 :: r =>
          (0x90 ≤ b1 && b1 ≤ 0xBF) && utf8Cont b2 && utf8Cont b3 && utf8ReadOk budget' r
        | _ => false
      else if 0xF1 ≤ b && b ≤ 0xF3 then
        match rest with
        | b1 :: b2 :: b3 :: r =>
          utf8Cont b1 && utf8Cont b2 && utf8Cont b3 && utf8ReadOk budget' r
        | _ => false
      else if b == 0xF4 then
        match rest with
        | b1 :: b2 :: b3 :: r =>
          (0x80 ≤ b1 && b1 ≤ 0x8F) && utf8Cont b2 && utf8Cont b3 && utf8ReadOk budget' r
        | _ => false
      else false

/-- Model of `security.is_text_file_robust`: the unused magic-number-based classifier.
`content` is the file's full byte content; `content.length` is what
`Path(path).stat().st_size` reports. -/
def is_text_file_robust (content : List Nat) : Bool :=
  if content.length > 10 * 1024 * 1024 then false
  else
    let header := content.take 512
    if has_binary_signature header then false
    else if header.any (fun b => b == 0) then false
    else if utf8ReadOk robustReadLimit content = false then false
    else if analyze_content_security header > 30 then false
    else true

/-! ## Configuration, filesystem and error taxonomy

`FileOpsConfig` fields relevant to the claims; `MAX_FILE_SIZE` from
`src/constants.py`.  The filesystem is a partial map from absolute path to
text content (the modelled operations only ever store text written with
`encoding='utf-8'`); raw byte views are taken with `utf8Encode` where the
source reads in binary mode. Directories are not modelled: every mapped key
is a regular file, matching the happy path of `os.path.isdir` checks. -/

structure Config where
  read_only : Bool
  git_enabled : Bool
  git_auto_commit : Bool
  git_username : String
  git_email : String
deriving DecidableEq, Repr

/-- Model of `constants.MAX_FILE_SIZE` (10 MB). -/
def MAX_FILE_SIZE : Nat := 10 * 1024 * 1024

def Fs : Type := String → Option (List Char)

def Fs.update (fs : Fs) (p : String) (v : Option (List Char)) : Fs :=
  fun q => if q = p then v else fs q

def emptyFs : Fs := fun _ => none

/-- Model of `ValueError` kinds raised by the modelled operations. -/
inductive Err where
  | readOnly
  | alreadyExists
  | doesNotExist
  | binaryContent
  | tooLarge
  | binaryFile
  | emptyContent
  | textNotFound
  | writeFailed
  | invalidPosition
  | moveFailed
deriving DecidableEq, Repr

/-- Model of `'\0' in content` on a Python `str`. -/
def hasNul (c : List Char) : Bool := c.any (fun ch => ch == Char.ofNat 0)

/-- Model of `path_utils.generate_checksum`: re-read the file's bytes and hash them.
The SHA-256 digest itself is a parameter `hash` of the development; the model
only relies on the checksum being a function of the bytes read back. -/
def generate_checksum (hash : List Nat → String) (fs : Fs) (p : String) :
    Option String :=
  (fs p).map (fun c => hash (utf8Encode c))

/-! ## Git layer (`src/utils/git_utils.py`)

The model tracks at most one repository (the one relevant to the claims):
`Repo` holds its root directory, the identity written by `init_repo`'s
`config_writer`, the index and HEAD trees as association lists from
repo-relative path to content, and a commit counter standing in for the
chain of commit objects.  `gitpython` is assumed importable
(`GIT_AVAILABLE = True`); exceptions raised inside `commit_file`'s try-block
are driven by the `raiseInCommit` oracle. -/

structure Repo where
  root : String
  userName : String
  userEmail : String
  index : List (String × List Char)
  head : List (String × List Char)
  commits : Nat
  lastMessage : Option String
deriving DecidableEq, Repr

abbrev GitState : Type := Option Repo

inductive GitErr where
  | unavailable
  | noRepo
  | commitFailed
deriving DecidableEq, Repr

def gitErrText : GitErr → String
  | .unavailable => "Git functionality is disabled in configuration."
  | .noRepo => "No Git repository found"
  | .commitFailed => "Failed to commit changes"

/-- Model of `str.startswith` at the character level (kernel-reducible). -/
def strPrefix (a b : String) : Bool := a.data.isPrefixOf b.data

/-- Model of `git.Repo(path, search_parent_directories=True)` finds the repository
whose root is the path itself or an ancestor of it. -/
def underRoot (root p : String) : Bool :=
  p == root || strPrefix (root ++ "/") p

/-- Model of `git_utils.get_repo` (the repository-root-inside-working-dir check always
passes here because modelled repositories live in the sandbox). -/
def get_repo (cfg : Config) (st : GitState) (path : String) : Except GitErr Repo :=
  if cfg.git_enabled = false then .error .unavailable
  else
    match st with
    | none => .error .noRepo
    | some r => if underRoot r.root path then .ok r else .error .noRepo

/-- Model of `os.path.relpath(path, root)` for a path at or below `root`. -/
def relPath (root p : String) : String :=
  if p = root then "." else ⟨p.data.drop (root.data.length + 1)⟩

/-- Inverse of `relPath`: the absolute path of a repo-relative path. -/
def joinUnder (root rel : String) : String :=
  if rel = "." then root else root ++ "/" ++ rel

/-- Update an association list in place, appending if the key is new
(the behaviour of staging a path into a git index). -/
def setAssoc (l : List (String × List Char)) (k : String) (v : List Char) :
    List (String × List Char) :=
  match l with
  | [] => [(k, v)]
  | kv :: rest => if kv.1 = k then (k, v) :: rest else kv :: setAssoc rest k v

/-- Part of `repo.is_dirty()`: some tracked path's working-tree content
differs from the index. -/
def worktreeDirty (fs : Fs) (r : Repo) : Bool :=
  r.index.any (fun kv => decide (fs (joinUnder r.root kv.1) ≠ some kv.2))

/-- Model of `repo.is_dirty()` (default arguments: index vs HEAD, working tree vs
index; untracked files ignored). -/
def isDirty (fs : Fs) (r : Repo) : Bool :=
  decide (r.index ≠ r.head) || worktreeDirty fs r

/-- The `.gitignore` content seeded by `init_repo`. -/
def defaultGitignore : List Char :=
  chars "# Automatically created by FileOps MCP\n*.pyc\n__pycache__/\n.DS_Store\n"

/-- Index of the last `/` in a path, if any. -/
def lastSlashIdx (p : List Char) : Option Nat :=
  ((List.range p.length).filter (fun i => p.get? i = some '/')).getLast?

/-- Model of `posixpath.dirname`. -/
def dirnameChars (p : List Char) : List Char :=
  match lastSlashIdx p with
  | none => []
  | some i =>
    let head := p.take (i + 1)
    if head.all (fun c => c = '/') then head
    else (head.reverse.dropWhile (fun c => c = '/')).reverse

def dirname (p : String) : String := ⟨dirnameChars p.data⟩

/-- The fresh-initialisation path of `git_utils.init_repo`: `git.Repo.init`,
identity from configuration, and a seeded `.gitignore` if absent. -/
def initFreshRepo (cfg : Config) (fs : Fs) (path : String) : GitState × Fs :=
  let r : Repo :=
    { root := path, userName := cfg.git_username, userEmail := cfg.git_email,
      index := [], head := [], commits := 0, lastMessage := none }
  let gp := path ++ "/.gitignore"
  let fs' := if (fs gp).isSome then fs else fs.update gp (some defaultGitignore)
  (some r, fs')

/-- Model of `git_utils.init_repo`.  If a repository already exists exactly at `path`
(`git.Repo(path)` without parent search succeeds) nothing is changed; in the
single-repository model a fresh init replaces the tracked repository. -/
def init_repo (cfg : Config) (fs : Fs) (st : GitState) (path : String) :
    Except GitErr (GitState × Fs) :=
  if cfg.git_enabled = false then .error .unavailable
  else
    match st with
    | some r => if r.root = path then .ok (some r, fs) else .ok (initFreshRepo cfg fs path)
    | none => .ok (initFreshRepo cfg fs path)

/-- The generated commit message of `commit_file` (the default
`config.git_commit_template` is `"[{operation}] {path}"`). -/
def formatCommitMessage (operation : Option String) (rel : String) : String :=
  match operation with
  | some op => "[" ++ op ++ "] " ++ rel
  | none => "Updated " ++ rel

/-- Model of `git_utils.commit_file`: stage the path, skip when the repository is
clean, otherwise commit.  `raiseInCommit = true` models an exception raised
anywhere inside the function's try-block (caught and re-raised as
`GitError("Failed to commit changes: ...")`); staging a path with no file
behind it makes `repo.git.add` raise, caught the same way. -/
def commit_file (cfg : Config) (raiseInCommit : Bool) (fs : Fs) (st : GitState)
    (path : String) (message : Option String) (operation : Option String) :
    Except GitErr (String × GitState) :=
  if cfg.git_enabled = false then .error .unavailable
  else
    match get_repo cfg st path with
    | .error _ => .error .commitFailed
    | .ok repo =>
      if raiseInCommit then .error .commitFailed
      else
        let rel := relPath repo.root path
        let isNew := repo.index.all (fun kv => decide (kv.1 ≠ rel))
        match fs path with
        | none => .error .commitFailed
        | some content =>
          let staged : Repo := { repo with index := setAssoc repo.index rel content }
          if isDirty fs staged = false then
            .ok ("No changes to commit", some staged)
          else
            let msg := message.getD (formatCommitMessage operation rel)
            let committed : Repo :=
              { staged with
                head := staged.index
                commits := staged.commits + 1
                lastMessage := some msg }
            .ok ((if isNew then "Added" else "Updated") ++ " and committed "
                  ++ rel ++ ": " ++ toString committed.commits, some committed)

/-- The advisory string produced when the source's
`rel_path = os.path.relpath(..., repo.working_dir)` line executes after the
repository-initialisation branch: `repo` was never assigned there, so Python
raises `UnboundLocalError`, caught by the blanket handler. -/
def autoCommitUnboundMsg : String :=
  "Auto-commit failed: cannot access local variable 'repo' where it is not associated with a value"

/-- Model of `git_utils.auto_commit_changes`.  Never fails: every exception inside is
caught and converted to an advisory string.  Returns the advisory (or `none`
when auto-commit is disabled), the resulting repository state and the
resulting filesystem (`init_repo` may seed a `.gitignore`). -/
def auto_commit_changes (cfg : Config) (raiseInCommit : Bool) (fs : Fs)
    (st : GitState) (path : String) (operation : String)
    (commit_message : Option String) : Option String × GitState × Fs :=
  if cfg.git_enabled = false ∨ cfg.git_auto_commit = false then (none, st, fs)
  else
    match get_repo cfg st path with
    | .ok repo =>
      let rel := relPath repo.root path
      let formatted :=
        commit_message.map (fun m => "[" ++ operation ++ "] " ++ rel ++ ": " ++ m)
      match commit_file cfg raiseInCommit fs st path formatted (some operation) with
      | .ok (msg, st') => (some msg, st', fs)
      | .error e => (some ("Auto-commit failed: " ++ gitErrText e), st, fs)
    | .error _ =>
      let repoPath := if (fs path).isSome then dirname path else path
      match init_repo cfg fs st repoPath with
      | .ok (st', fs') => (some autoCommitUnboundMsg, st', fs')
      | .error e => (some ("Auto-commit failed: " ++ gitErrText e), st, fs)

/-! ## File operations (`src/operations/file_ops.py`)

Each operation is modelled from the source body, in source order, starting
after `validate_operation` produced the absolute path: the read-only gate,
existence/type expectations and the binary gate of `validate_operation` are
inlined at the top of each operation exactly as that function applies them
for the operation's name.  The `old_str`/`new_str` alternate parameter names
of the source are resolved before the model is entered, and `content` is the
string produced by `sanitize_file_string`.  The temporary-file write used by
the atomic operations is driven by a `WriteOutcome` oracle: `failAfter k`
means the underlying write raised after `k` characters were flushed (for a
temporary-file write the temporary is removed and the target untouched; for
the in-place append the target keeps the flushed prefix). -/

structure OpState where
  fs : Fs
  git : GitState

inductive WriteOutcome where
  | success
  | failAfter (k : Nat)
deriving DecidableEq, Repr

/-- The per-operation auto-commit block (`commit_result` plumbing).  Since
`auto_commit_changes` never raises, the `except GitError` arm of the source
is dead code. -/
def commitStep (cfg : Config) (raiseInCommit : Bool) (st : OpState)
    (path operation : String) (cm : Option String) : Option String × OpState :=
  let out := auto_commit_changes cfg raiseInCommit st.fs st.git path operation cm
  (out.1, { fs := out.2.2, git := out.2.1 })

structure CreateOk where
  size : Nat
  checksum : String
  commitNote : Option String
deriving DecidableEq, Repr

/-- Model of `create_file`. -/
def create_file (cfg : Config) (wr : WriteOutcome) (raiseInCommit : Bool)
    (hash : List Nat → String) (st : OpState) (path : String)
    (content : List Char) (cm : Option String) : Except Err CreateOk × OpState :=
  if cfg.read_only then (.error .readOnly, st)
  else if (st.fs path).isSome then (.error .alreadyExists, st)
  else if hasNul content then (.error .binaryContent, st)
  else if content.length > MAX_FILE_SIZE then (.error .tooLarge, st)
  else
    match wr with
    | .failAfter _ => (.error .writeFailed, st)
    | .success =>
      let fs' := st.fs.update path (some content)
      let size := utf8ByteLength ((fs' path).getD [])
      let checksum := (generate_checksum hash fs' path).getD ""
      let step := commitStep cfg raiseInCommit { st with fs := fs' } path "create_file" cm
      (.ok { size := size, checksum := checksum, commitNote := step.1 }, step.2)

/-- Python's `needle in haystack` on strings: contiguous-sublist membership. -/
def isSubstring (needle hay : List Char) : Bool :=
  (List.range (hay.length + 1)).any (fun i => needle.isPrefixOf (hay.drop i))

/-- Python `str.replace(old, new)` (all non-overlapping occurrences, left to
right); the fuel `s.length` suffices because each step consumes at least one
character when `old` is non-empty, and the operations reject empty `old`. -/
def replaceAllGo (old new : List Char) : Nat → List Char → List Char
  | 0, s => s
  | _ + 1, [] => []
  | fuel + 1, c :: rest =>
    if old.isPrefixOf (c :: rest) then
      new ++ replaceAllGo old new fuel ((c :: rest).drop old.length)
    else c :: replaceAllGo old new fuel rest

def replaceAll (old new s : List Char) : List Char :=
  if old.isEmpty then s else replaceAllGo old new s.length s

/-- Python `str.count(old)` for non-empty `old` (non-overlapping). -/
def countOccurGo (old : List Char) : Nat → List Char → Nat
  | 0, _ => 0
  | _ + 1, [] => 0
  | fuel + 1, c :: rest =>
    if old.isPrefixOf (c :: rest) then
      1 + countOccurGo old fuel ((c :: rest).drop old.length)
    else countOccurGo old fuel rest

def countOccur (old s : List Char) : Nat :=
  if old.isEmpty then s.length + 1 else countOccurGo old s.length s

structure UpdateOk where
  originalChecksum : String
  newChecksum : String
  commitNote : Option String
deriving DecidableEq, Repr

/-- Model of `update_file` (note the source's `content.replace` replaces every
occurrence). -/
def update_file (cfg : Config) (wr : WriteOutcome) (raiseInCommit : Bool)
    (hash : List Nat → String) (st : OpState) (path : String)
    (old new : List Char) (cm : Option String) : Except Err UpdateOk × OpState :=
  if cfg.read_only then (.error .readOnly, st)
  else
    match st.fs path with
    | none => (.error .doesNotExist, st)
    | some fileContent =>
      if is_text_file path (utf8Encode fileContent) = false then (.error .binaryFile, st)
      else if old.isEmpty then (.error .emptyContent, st)
      else if hasNul new then (.error .binaryContent, st)
      else
        let originalChecksum := (generate_checksum hash st.fs path).getD ""
        if isSubstring old fileContent = false then (.error .textNotFound, st)
        else
          let updated := replaceAll old new fileContent
          if updated.length > MAX_FILE_SIZE then (.error .tooLarge, st)
          else
            match wr with
            | .failAfter _ => (.error .writeFailed, st)
            | .success =>
              let fs' := st.fs.update path (some updated)
              let newChecksum := (generate_checksum hash fs' path).getD ""
              let step := commitStep cfg raiseInCommit { st with fs := fs' } path "update_file" cm
              (.ok { originalChecksum := originalChecksum, newChecksum := newChecksum,
                     commitNote := step.1 }, step.2)

/-- Model of `rewrite_file` (`validate_operation` lists it among the operations whose
target must already exist, so the source's created-fresh branch is dead). -/
def rewrite_file (cfg : Config) (wr : WriteOutcome) (raiseInCommit : Bool)
    (hash : List Nat → String) (st : OpState) (path : String)
    (content : List Char) (cm : Option String) : Except Err UpdateOk × OpState :=
  if cfg.read_only then (.error .readOnly, st)
  else
    match st.fs path with
    | none => (.error .doesNotExist, st)
    | some fileContent =>
      if is_text_file path (utf8Encode fileContent) = false then (.error .binaryFile, st)
      else if hasNul content then (.error .binaryContent, st)
      else if content.length > MAX_FILE_SIZE then (.error .tooLarge, st)
      else
        let originalChecksum := (generate_checksum hash st.fs path).getD ""
        match wr with
        | .failAfter _ => (.error .writeFailed, st)
        | .success =>
          let fs' := st.fs.update path (some content)
          let newChecksum := (generate_checksum hash fs' path).getD ""
          let step := commitStep cfg raiseInCommit { st with fs := fs' } path "rewrite_file" cm
          (.ok { originalChecksum := originalChecksum, newChecksum := newChecksum,
                 commitNote := step.1 }, step.2)

/-- Model of `remove_from_file` (no size check in the source: removal shrinks). -/
def remove_from_file (cfg : Config) (wr : WriteOutcome) (raiseInCommit : Bool)
    (hash : List Nat → String) (st : OpState) (path : String)
    (old : List Char) (cm : Option String) : Except Err UpdateOk × OpState :=
  if cfg.read_only then (.error .readOnly, st)
  else
    match st.fs path with
    | none => (.error .doesNotExist, st)
    | some fileContent =>
      if is_text_file path (utf8Encode fileContent) = false then (.error .binaryFile, st)
      else if old.isEmpty then (.error .emptyContent, st)
      else
        let originalChecksum := (generate_checksum hash st.fs path).getD ""
        if isSubstring old fileContent = false then (.error .textNotFound, st)
        else
          let updated := replaceAll old [] fileContent
          match wr with
          | .failAfter _ => (.error .writeFailed, st)
          | .success =>
            let fs' := st.fs.update path (some updated)
            let newChecksum := (generate_checksum hash fs' path).getD ""
            let step := commitStep cfg raiseInCommit { st with fs := fs' } path "remove_from_file" cm
            (.ok { originalChecksum := originalChecksum, newChecksum := newChecksum,
                   commitNote := step.1 }, step.2)

structure AppendOk where
  created : Bool
  originalChecksum : Option String
  newChecksum : String
  commitNote : Option String
deriving DecidableEq, Repr

/-- Model of `append_to_file`: the only text mutation that writes in place
(`open(abs_path, 'a')`) instead of writing a temporary file and renaming.
A write failure after `k` characters therefore leaves the original content
with a `k`-character prefix of the new content appended (the file is created
first when absent).  The source's size check mixes `os.path.getsize` (bytes)
with `len(content)` (characters), reproduced faithfully. -/
def append_to_file (cfg : Config) (wr : WriteOutcome) (raiseInCommit : Bool)
    (hash : List Nat → String) (st : OpState) (path : String)
    (content : List Char) (cm : Option String) : Except Err AppendOk × OpState :=
  if cfg.read_only then (.error .readOnly, st)
  else if (st.fs path).isSome
      ∧ is_text_file path (utf8Encode ((st.fs path).getD [])) = false then
    (.error .binaryFile, st)
  else if content.isEmpty then (.error .emptyContent, st)
  else if hasNul content then (.error .binaryContent, st)
  else
    let orig := st.fs path
    let originalChecksum := (generate_checksum hash st.fs path)
    if (match orig with
        | some o => decide (utf8ByteLength o + content.length > MAX_FILE_SIZE)
        | none => false) then (.error .tooLarge, st)
    else
      match wr with
      | .failAfter k =>
        (.error .writeFailed,
         { st with fs := st.fs.update path (some ((orig.getD []) ++ content.take k)) })
      | .success =>
        let fs' := st.fs.update path (some ((orig.getD []) ++ content))
        let newChecksum := (generate_checksum hash fs' path).getD ""
        let step := commitStep cfg raiseInCommit { st with fs := fs' } path "append_to_file" cm
        (.ok { created := orig.isNone, originalChecksum := originalChecksum,
               newChecksum := newChecksum, commitNote := step.1 }, step.2)

/-- The position specifier of `insert_in_file`; the source's
exactly-one-specifier and non-negative-integer validations are encoded by
this type. -/
inductive InsertPos where
  | afterLine (n : Nat)
  | beforeLine (n : Nat)
  | afterPattern (pat : List Char)
deriving DecidableEq, Repr

/-- Model of `f.readlines()` on text whose newlines are `'\n'`: split after every
newline, final piece kept without one. -/
def readlinesAux : List Char → List Char → List (List Char)
  | acc, [] => if acc = [] then [] else [acc.reverse]
  | acc, c :: rest =>
    if c = '\n' then (acc.reverse ++ ['\n']) :: readlinesAux [] rest
    else readlinesAux (c :: acc) rest

def readlines (s : List Char) : List (List Char) := readlinesAux [] s

/-- First line index containing the pattern (`after_pattern in line`). -/
def findPatternIdx (pat : List Char) (lines : List (List Char)) : Option Nat :=
  (List.range lines.length).find? (fun i => isSubstring pat (lines.getD i []))

/-- Python `list.insert`. -/
def insertAt (xs : List (List Char)) (i : Nat) (v : List Char) :
    List (List Char) :=
  xs.take i ++ v :: xs.drop i

structure InsertOk where
  originalChecksum : String
  newChecksum : String
  commitNote : Option String
deriving DecidableEq, Repr

/-- Model of `insert_in_file`. -/
def insert_in_file (cfg : Config) (wr : WriteOutcome) (raiseInCommit : Bool)
    (hash : List Nat → String) (st : OpState) (path : String)
    (content : List Char) (pos : InsertPos) (cm : Option String) :
    Except Err InsertOk × OpState :=
  if cfg.read_only then (.error .readOnly, st)
  else
    match st.fs path with
    | none => (.error .doesNotExist, st)
    | some fileContent =>
      if is_text_file path (utf8Encode fileContent) = false then (.error .binaryFile, st)
      else if content.isEmpty then (.error .emptyContent, st)
      else if hasNul content then (.error .binaryContent, st)
      else
        let originalChecksum := (generate_checksum hash st.fs path).getD ""
        let lines := readlines fileContent
        let idx? : Option Nat :=
          match pos with
          | .afterLine n => if n ≥ lines.length then none else some (n + 1)
          | .beforeLine n => if n > lines.length then none else some n
          | .afterPattern pat => (findPatternIdx pat lines).map (· + 1)
        match idx? with
        | none => (.error .invalidPosition, st)
        | some idx =>
          if utf8ByteLength fileContent + content.length > MAX_FILE_SIZE then
            (.error .tooLarge, st)
          else
            let content' :=
              if idx < lines.length ∧ content.getLast? ≠ some '\n' then
                content ++ ['\n']
              else content
            let updated := (insertAt lines idx content').flatten
            match wr with
            | .failAfter _ => (.error .writeFailed, st)
            | .success =>
              let fs' := st.fs.update path (some updated)
              let newChecksum := (generate_checksum hash fs' path).getD ""
              let step := commitStep cfg raiseInCommit { st with fs := fs' } path "insert_in_file" cm
              (.ok { originalChecksum := originalChecksum, newChecksum := newChecksum,
                     commitNote := step.1 }, step.2)

structure ReplaceAllOk where
  occurrences : Nat
  originalChecksum : String
  newChecksum : String
  commitNote : Option String
deriving DecidableEq, Repr

/-- Model of `replace_all_in_file` (the source registers two byte-identical copies of
this tool; one definition models both). -/
def replace_all_in_file (cfg : Config) (wr : WriteOutcome) (raiseInCommit : Bool)
    (hash : List Nat → String) (st : OpState) (path : String)
    (old new : List Char) (cm : Option String) : Except Err ReplaceAllOk × OpState :=
  if cfg.read_only then (.error .readOnly, st)
  else
    match st.fs path with
    | none => (.error .doesNotExist, st)
    | some fileContent =>
      if is_text_file path (utf8Encode fileContent) = false then (.error .binaryFile, st)
      else if old.isEmpty then (.error .emptyContent, st)
      else if hasNul new then (.error .binaryContent, st)
      else
        let originalChecksum := (generate_checksum hash st.fs path).getD ""
        if isSubstring old fileContent = false then (.error .textNotFound, st)
        else
          let occurrences := countOccur old fileContent
          let updated := replaceAll old new fileContent
          if updated.length > MAX_FILE_SIZE then (.error .tooLarge, st)
          else
            match wr with
            | .failAfter _ => (.error .writeFailed, st)
            | .success =>
              let fs' := st.fs.update path (some updated)
              let newChecksum := (generate_checksum hash fs' path).getD ""
              let step := commitStep cfg raiseInCommit { st with fs := fs' } path "replace_all_in_file" cm
              (.ok { occurrences := occurrences, originalChecksum := originalChecksum,
                     newChecksum := newChecksum, commitNote := step.1 }, step.2)

structure ReadOk where
  size : Nat
  checksum : String
  lineInfo : Option (Nat × Nat × Nat)
  content : List Char
deriving DecidableEq, Repr

/-- Model of `read_file`.  Pure: returns the pieces the source interpolates into its
reply (size, checksum, optional line-range info, and the content read).  A
missing file makes `os.path.getsize` raise `FileNotFoundError`, surfaced
as an error. -/
def read_file (hash : List Nat → String) (fs : Fs) (path : String)
    (startLine endLine : Option Int) : Except Err ReadOk :=
  match fs path with
  | none => .error .doesNotExist
  | some fileContent =>
    if is_text_file path (utf8Encode fileContent) = false then .error .binaryFile
    else if utf8ByteLength fileContent > MAX_FILE_SIZE then .error .tooLarge
    else
      let size := utf8ByteLength fileContent
      let checksum := hash (utf8Encode fileContent)
      match startLine, endLine with
      | none, none =>
        .ok { size := size, checksum := checksum, lineInfo := none,
              content := fileContent }
      | _, _ =>
        let allLines := readlines fileContent
        let total := allLines.length
        if (match startLine with
            | some s => decide (s < 1 ∨ (total : Int) < s)
            | none => false) then .error .invalidPosition
        else if (match endLine with
            | some e => decide (e < 1 ∨ (total : Int) < e)
            | none => false) then .error .invalidPosition
        else if (match startLine, endLine with
            | some s, some e => decide (e < s)
            | _, _ => false) then .error .invalidPosition
        else
          let startIdx : Nat := match startLine with
            | some s => (s - 1).toNat
            | none => 0
          let endIdx : Nat := match endLine with
            | some e => e.toNat
            | none => total
          let selected := (allLines.drop startIdx).take (endIdx - startIdx)
          .ok { size := size, checksum := checksum,
                lineInfo := some (startIdx + 1, min endIdx total, total),
                content := selected.flatten }

/-- How the fallback copy of `move_file` behaves: the write raised midway
(the incomplete destination is removed by the cleanup handler), or it completed
leaving `actual` bytes on disk (`actual = source content` unless the storage
corrupted the data — which is exactly what the verification step exists to
catch). -/
inductive CopyOutcome where
  | raisesMidWrite
  | writes (actual : List Char)
deriving DecidableEq, Repr

structure MoveEnv where
  renameOk : Bool
  copyOutcome : CopyOutcome
deriving DecidableEq, Repr

structure MoveOk where
  commitNote : Option String
deriving DecidableEq, Repr

/-- Model of `move_file`: direct `os.rename`; on `OSError` fall back to copy + verify
(size and checksum against the source) + delete-source; a failed verification
removes the destination and reports failure with the source intact. -/
def move_file (cfg : Config) (env : MoveEnv) (raiseInCommit : Bool)
    (hash : List Nat → String) (st : OpState) (src dst : String)
    (cm : Option String) : Except Err MoveOk × OpState :=
  if cfg.read_only then (.error .readOnly, st)
  else
    match st.fs src with
    | none => (.error .doesNotExist, st)
    | some srcContent =>
      if (st.fs dst).isSome then (.error .alreadyExists, st)
      else
        let sourceSize := utf8ByteLength srcContent
        let sourceChecksum := hash (utf8Encode srcContent)
        if env.renameOk then
          let fs' := (st.fs.update src none).update dst (some srcContent)
          let step := commitStep cfg raiseInCommit { st with fs := fs' } dst "move_file" cm
          (.ok { commitNote := step.1 }, step.2)
        else
          match env.copyOutcome with
          | .raisesMidWrite => (.error .moveFailed, st)
          | .writes actual =>
            let fsC := st.fs.update dst (some actual)
            if sourceSize ≠ utf8ByteLength actual
                ∨ sourceChecksum ≠ hash (utf8Encode actual) then
              (.error .moveFailed, { st with fs := fsC.update dst none })
            else
              let fs' := fsC.update src none
              let step := commitStep cfg raiseInCommit { st with fs := fs' } dst "move_file" cm
              (.ok { commitNote := step.1 }, step.2)

/-! ## Concrete fixtures used by the witnesses and counterexamples -/

/-- Default configuration of `constants.FileOpsConfig` (git on, writable). -/
def cfg0 : Config :=
  { read_only := false, git_enabled := true, git_auto_commit := true,
    git_username := "FileOps MCP", git_email := "fileops-mcp@no-reply.local" }

/-- Configuration with versioning disabled. -/
def cfgNoGit : Config :=
  { cfg0 with git_enabled := false, git_auto_commit := false }

/-- A concrete stand-in for the SHA-256 hex digest used where a witness needs
an executable hash (the theorems hold for every hash function). -/
def hash0 : List Nat → String :=
  fun bs => toString (bs.foldl (fun a b => a * 31 + b) 7)

/-- A sandbox with the single file `/work/a.txt` containing `hi`. -/
def fsA : Fs := Fs.update emptyFs "/work/a.txt" (some (chars "hi"))

/-- An empty repository rooted at the sandbox root. -/
def repo0 : Repo :=
  { root := "/work", userName := "FileOps MCP",
    userEmail := "fileops-mcp@no-reply.local", index := [], head := [],
    commits := 0, lastMessage := none }

/-! ## Helper lemmas -/

lemma fs_update_self (fs : Fs) (p : String) (v : Option (List Char)) :
    Fs.update fs p v p = v := by
  simp [Fs.update]

lemma fs_update_other (fs : Fs) (p : String) (v : Option (List Char))
    (q : String) (h : q ≠ p) : Fs.update fs p v q = fs q := by
  simp [Fs.update, h]

lemma utf8ByteLength_cons (c : Char) (s : List Char) :
    utf8ByteLength (c :: s) = (utf8EncodeChar c).length + utf8ByteLength s := by
  simp [utf8ByteLength, utf8Encode]

lemma utf8ByteLength_replicate (n : Nat) (c : Char) :
    utf8ByteLength (List.replicate n c) = n * (utf8EncodeChar c).length := by
  induction n with
  | zero => simp [utf8ByteLength, utf8Encode]
  | succ n ih =>
    rw [List.replicate_succ, utf8ByteLength_cons, ih, Nat.succ_mul]
    omega

lemma hasNul_cons (c : Char) (s : List Char) :
    hasNul (c :: s) = ((c == Char.ofNat 0) || hasNul s) := rfl

lemma hasNul_replicate (n : Nat) (c : Char) (h : (c == Char.ofNat 0) = false) :
    hasNul (List.replicate n c) = false := by
  induction n with
  | zero => rfl
  | succ n ih => rw [List.replicate_succ, hasNul_cons, h, ih]; rfl

/-- Model of `initFreshRepo` only ever writes a path that was previously absent. -/
lemma initFresh_fs_preserves (cfg : Config) (fs : Fs) (path q : String)
    (v : List Char) (h : fs q = some v) :
    (initFreshRepo cfg fs path).2 q = some v := by
  unfold initFreshRepo
  dsimp only
  split
  · exact h
  · by_cases hq : q = path ++ "/.gitignore"
    · subst hq
      simp_all
    · rw [fs_update_other _ _ _ _ hq]
      exact h

lemma init_repo_fs_preserves (cfg : Config) (fs : Fs) (st : GitState)
    (path q : String) (v : List Char) (st' : GitState) (fs' : Fs)
    (h : fs q = some v) (hi : init_repo cfg fs st path = .ok (st', fs')) :
    fs' q = some v := by
  unfold init_repo at hi
  split at hi
  · cases hi
  · cases st with
    | none =>
      simp only at hi
      cases hi
      exact initFresh_fs_preserves cfg fs path q v h
    | some r =>
      simp only at hi
      split at hi
      · cases hi; exact h
      · cases hi
        exact initFresh_fs_preserves cfg fs path q v h

/-- The checkpoint wrapper never erases or rewrites an existing file: only
`init_repo`'s `.gitignore` seeding touches the filesystem, and only at a
previously absent path. -/
lemma autoCommit_fs_preserves (cfg : Config) (roc : Bool) (fs : Fs)
    (st : GitState) (path op : String) (cm : Option String) (q : String)
    (v : List Char) (h : fs q = some v) :
    (auto_commit_changes cfg roc fs st path op cm).2.2 q = some v := by
  unfold auto_commit_changes
  split
  · exact h
  · cases hg : get_repo cfg st path with
    | ok repo =>
      simp only
      cases hc : commit_file cfg roc fs st path
          ((cm.map (fun m => "[" ++ op ++ "] " ++ relPath repo.root path ++ ": " ++ m)))
          (some op) with
      | ok pair => exact h
      | error e => exact h
    | error e =>
      simp only
      cases hi : init_repo cfg fs st (if (fs path).isSome then dirname path else path) with
      | ok pair => exact init_repo_fs_preserves _ _ _ _ _ _ _ _ h hi
      | error e2 => exact h

/-- When a repository already covers the path, the checkpoint wrapper leaves
the filesystem untouched (no lazy initialisation can run). -/
lemma autoCommit_fs_of_repo (cfg : Config) (roc : Bool) (fs : Fs)
    (repo : Repo) (path op : String) (cm : Option String)
    (h : underRoot repo.root path = true) :
    (auto_commit_changes cfg roc fs (some repo) path op cm).2.2 = fs := by
  unfold auto_commit_changes
  split
  · rfl
  · rename_i hcfg
    have he : cfg.git_enabled = true := by
      by_cases hx : cfg.git_enabled = true
      · exact hx
      · exact absurd (Or.inl (by simpa using hx)) hcfg
    cases hg : get_repo cfg (some repo) path with
    | ok repo' =>
      simp only
      cases commit_file cfg roc fs (some repo) path _ (some op) with
      | ok pair => rfl
      | error e => rfl
    | error e =>
      exact absurd hg (by unfold get_repo; simp [he, h])

/-- The success path of `create_file`, with every gate discharged. -/
lemma create_file_success (cfg : Config) (roc : Bool)
    (hash : List Nat → String) (st : OpState) (p : String) (c : List Char)
    (cm : Option String)
    (h1 : cfg.read_only = false) (h2 : st.fs p = none)
    (h3 : hasNul c = false) (h4 : c.length ≤ MAX_FILE_SIZE) :
    create_file cfg .success roc hash st p c cm
      = (let fs' := st.fs.update p (some c)
         let step := commitStep cfg roc { st with fs := fs' } p "create_file" cm
         (.ok { size := utf8ByteLength ((fs' p).getD [])
                checksum := (generate_checksum hash fs' p).getD ""
                commitNote := step.1 }, step.2)) := by
  have hlt : ¬(c.length > MAX_FILE_SIZE) := by omega
  unfold create_file
  rw [h1, h2, h3]
  simp only [Option.isSome_none, Bool.false_eq_true, if_false, if_neg hlt]

/-- After a successful `create_file` the target holds exactly the new
content, whatever the versioning layer does afterwards. -/
lemma create_file_fs (cfg : Config) (roc : Bool) (hash : List Nat → String)
    (st : OpState) (p : String) (c : List Char) (cm : Option String)
    (h1 : cfg.read_only = false) (h2 : st.fs p = none)
    (h3 : hasNul c = false) (h4 : c.length ≤ MAX_FILE_SIZE) :
    (create_file cfg .success roc hash st p c cm).2.fs p = some c := by
  rw [create_file_success cfg roc hash st p c cm h1 h2 h3 h4]
  exact autoCommit_fs_preserves _ _ _ _ _ _ _ _ _ (fs_update_self st.fs p (some c))

/-- A failed `create_file` returns the state untouched (all failure branches
precede the write, and a failed temporary-file write is cleaned up). -/
lemma create_file_error_unchanged (cfg : Config) (wr : WriteOutcome)
    (roc : Bool) (hash : List Nat → String) (st : OpState) (p : String)
    (c : List Char) (cm : Option String)
    (h : (create_file cfg wr roc hash st p c cm).1.isErr = true) :
    (create_file cfg wr roc hash st p c cm).2 = st := by
  revert h
  unfold create_file
  cases wr <;> repeat' split
  all_goals (try simp [Except.isErr, apply_ite])
  all_goals (try (intro h2; split at h2 <;> simp_all [Except.isErr]))
  all_goals (try (rename_i heq; split at heq <;> simp_all [Except.isErr]))

lemma update_file_error_unchanged (cfg : Config) (wr : WriteOutcome)
    (roc : Bool) (hash : List Nat → String) (st : OpState) (p : String)
    (old new : List Char) (cm : Option String)
    (h : (update_file cfg wr roc hash st p old new cm).1.isErr = true) :
    (update_file cfg wr roc hash st p old new cm).2 = st := by
  revert h
  unfold update_file
  cases wr <;> repeat' split
  all_goals (try simp [Except.isErr, apply_ite])
  all_goals (try (intro h2; split at h2 <;> simp_all [Except.isErr]))
  all_goals (try (rename_i heq; split at heq <;> simp_all [Except.isErr]))

lemma rewrite_file_error_unchanged (cfg : Config) (wr : WriteOutcome)
    (roc : Bool) (hash : List Nat → String) (st : OpState) (p : String)
    (c : List Char) (cm : Option String)
    (h : (rewrite_file cfg wr roc hash st p c cm).1.isErr = true) :
    (rewrite_file cfg wr roc hash st p c cm).2 = st := by
  revert h
  unfold rewrite_file
  cases wr <;> repeat' split
  all_goals (try simp [Except.isErr, apply_ite])
  all_goals (try (intro h2; split at h2 <;> simp_all [Except.isErr]))
  all_goals (try (rename_i heq; split at heq <;> simp_all [Except.isErr]))

lemma remove_from_file_error_unchanged (cfg : Config) (wr : WriteOutcome)
    (roc : Bool) (hash : List Nat → String) (st : OpState) (p : String)
    (old : List Char) (cm : Option String)
    (h : (remove_from_file cfg wr roc hash st p old cm).1.isErr = true) :
    (remove_from_file cfg wr roc hash st p old cm).2 = st := by
  revert h
  unfold remove_from_file
  cases wr <;> repeat' split
  all_goals (try simp [Except.isErr, apply_ite])
  all_goals (try (intro h2; split at h2 <;> simp_all [Except.isErr]))
  all_goals (try (rename_i heq; split at heq <;> simp_all [Except.isErr]))

lemma insert_in_file_error_unchanged (cfg : Config) (wr : WriteOutcome)
    (roc : Bool) (hash : List Nat → String) (st : OpState) (p : String)
    (c : List Char) (pos : InsertPos) (cm : Option String)
    (h : (insert_in_file cfg wr roc hash st p c pos cm).1.isErr = true) :
    (insert_in_file cfg wr roc hash st p c pos cm).2 = st := by
  revert h
  unfold insert_in_file
  cases wr <;> repeat' split
  all_goals (try simp [Except.isErr, apply_ite])
  all_goals (try (intro h2; split at h2 <;> simp_all [Except.isErr]))
  all_goals (try (rename_i heq; split at heq <;> simp_all [Except.isErr]))

lemma replace_all_in_file_error_unchanged (cfg : Config) (wr : WriteOutcome)
    (roc : Bool) (hash : List Nat → String) (st : OpState) (p : String)
    (old new : List Char) (cm : Option String)
    (h : (replace_all_in_file cfg wr roc hash st p old new cm).1.isErr = true) :
    (replace_all_in_file cfg wr roc hash st p old new cm).2 = st := by
  revert h
  unfold replace_all_in_file
  cases wr <;> repeat' split
  all_goals (try simp [Except.isErr, apply_ite])
  all_goals (try (intro h2; split at h2 <;> simp_all [Except.isErr]))
  all_goals (try (rename_i heq; split at heq <;> simp_all [Except.isErr]))

/-- The in-place append with a mid-write failure: the target keeps the
original content plus the flushed prefix of the new content. -/
lemma append_to_file_failAfter (cfg : Config) (roc : Bool)
    (hash : List Nat → String) (st : OpState) (p : String) (c : List Char)
    (cm : Option String) (k : Nat) (orig : List Char)
    (h1 : cfg.read_only = false) (h2 : st.fs p = some orig)
    (h3 : is_text_file p (utf8Encode orig) = true)
    (h4 : c.isEmpty = false) (h5 : hasNul c = false)
    (h6 : utf8ByteLength orig + c.length ≤ MAX_FILE_SIZE) :
    append_to_file cfg (.failAfter k) roc hash st p c cm
      = (.error .writeFailed,
         { st with fs := st.fs.update p (some (orig ++ c.take k)) }) := by
  have h6' : ¬(utf8ByteLength orig + c.length > MAX_FILE_SIZE) := by omega
  unfold append_to_file
  rw [h1, h2, h4, h5]
  simp [h3, h6']

lemma setAssoc_setAssoc (l : List (String × List Char)) (k : String)
    (v : List Char) : setAssoc (setAssoc l k v) k v = setAssoc l k v := by
  induction l with
  | nil => simp [setAssoc]
  | cons kv rest ih =>
    by_cases h : kv.1 = k
    · simp [setAssoc, h]
    · simp [setAssoc, h, ih]

lemma mem_setAssoc (l : List (String × List Char)) (k : String) (v : List Char)
    (kv : String × List Char) (h : kv ∈ setAssoc l k v) :
    kv = (k, v) ∨ kv ∈ l := by
  induction l with
  | nil => simp [setAssoc] at h; simp [h]
  | cons kv' rest ih =>
    by_cases hk : kv'.1 = k
    · simp only [setAssoc, if_pos hk, List.mem_cons] at h
      rcases h with h | h
      · exact Or.inl h
      · exact Or.inr (List.mem_cons_of_mem _ h)
    · simp only [setAssoc, if_neg hk, List.mem_cons] at h
      rcases h with h | h
      · exact Or.inr (h ▸ List.mem_cons_self _ _)
      · rcases ih h with h' | h'
        · exact Or.inl h'
        · exact Or.inr (List.mem_cons_of_mem _ h')

/-- A repository whose index equals its HEAD and whose tracked files match
the working tree is clean. -/
lemma isDirty_false_of (fs : Fs) (r : Repo) (hhi : r.index = r.head)
    (hw : ∀ kv ∈ r.index, fs (joinUnder r.root kv.1) = some kv.2) :
    isDirty fs r = false := by
  unfold isDirty worktreeDirty
  rw [hhi]
  simp only [ne_eq, not_true_eq_false, decide_False, Bool.false_or,
    List.any_eq_false, decide_eq_true_eq]
  intro kv hkv
  simp [hw kv (hhi ▸ hkv)]

/-- Model of `commit_file` on a repository already clean for this path: the stage is
a no-op, `is_dirty` is false, and the call reports the skip without touching
the commit chain. -/
lemma commit_file_clean_skip (cfg : Config) (fs : Fs) (repo1 : Repo)
    (path : String) (content : List Char) (m op : Option String)
    (hen : cfg.git_enabled = true)
    (hroot : underRoot repo1.root path = true)
    (hfsp : fs path = some content)
    (hstag : setAssoc repo1.index (relPath repo1.root path) content = repo1.index)
    (hdirty : isDirty fs repo1 = false) :
    commit_file cfg false fs (some repo1) path m op
      = .ok ("No changes to commit", some repo1) := by
  have hg : get_repo cfg (some repo1) path = .ok repo1 := by
    unfold get_repo; simp [hen, hroot]
  unfold commit_file
  rw [if_neg (by simp [hen]), hg]
  dsimp only
  rw [if_neg (by simp), hfsp]
  dsimp only
  rw [hstag]
  rw [if_pos (show isDirty fs { repo1 with index := repo1.index } = false from hdirty)]

/-! ## Theorems -/

/-- C1, counterexample.  `append_to_file` is not atomic: it opens the target
in append mode and writes in place, so a failure injected during the content
write (here after one character of `XY` was flushed) leaves the target
holding `hiX` — its content, and hence its checksum, changed although the
operation reports an error. -/
theorem c1_counterexample :
    (append_to_file cfg0 (.failAfter 1) false hash0
        { fs := fsA, git := some repo0 } "/work/a.txt" (chars "XY") none).1
      = .error .writeFailed
    ∧ (append_to_file cfg0 (.failAfter 1) false hash0
        { fs := fsA, git := some repo0 } "/work/a.txt" (chars "XY") none).2.fs
        "/work/a.txt"
      = some (chars "hiX")
    ∧ fsA "/work/a.txt" = some (chars "hi") := by
  decide

/-- C1, amended.  Of the seven text-mutating operations, the six that write
through a temporary file plus atomic rename (`create_file`, `update_file`,
`rewrite_file`, `remove_from_file`, `insert_in_file`, `replace_all_in_file`)
leave the target byte-identical on every failure, including a failure
injected during the content write.  `append_to_file` writes in place: its
pre-write failures also leave the target unchanged, but a failure injected
during the write itself leaves the original content with the flushed prefix
of the new content appended. -/
theorem c1_amended (cfg : Config) (wr : WriteOutcome) (roc : Bool)
    (hash : List Nat → String) (st : OpState) (p : String)
    (cm : Option String) :
    (∀ c, (create_file cfg wr roc hash st p c cm).1.isErr = true →
       (create_file cfg wr roc hash st p c cm).2.fs p = st.fs p)
    ∧ (∀ old new, (update_file cfg wr roc hash st p old new cm).1.isErr = true →
       (update_file cfg wr roc hash st p old new cm).2.fs p = st.fs p)
    ∧ (∀ c, (rewrite_file cfg wr roc hash st p c cm).1.isErr = true →
       (rewrite_file cfg wr roc hash st p c cm).2.fs p = st.fs p)
    ∧ (∀ old, (remove_from_file cfg wr roc hash st p old cm).1.isErr = true →
       (remove_from_file cfg wr roc hash st p old cm).2.fs p = st.fs p)
    ∧ (∀ c pos, (insert_in_file cfg wr roc hash st p c pos cm).1.isErr = true →
       (insert_in_file cfg wr roc hash st p c pos cm).2.fs p = st.fs p)
    ∧ (∀ old new, (replace_all_in_file cfg wr roc hash st p old new cm).1.isErr = true →
       (replace_all_in_file cfg wr roc hash st p old new cm).2.fs p = st.fs p)
    ∧ (∀ c k orig, cfg.read_only = false → st.fs p = some orig →
        is_text_file p (utf8Encode orig) = true → c.isEmpty = false →
        hasNul c = false → utf8ByteLength orig + c.length ≤ MAX_FILE_SIZE →
        append_to_file cfg (.failAfter k) roc hash st p c cm
          = (.error .writeFailed,
             { st with fs := st.fs.update p (some (orig ++ c.take k)) })) := by
  refine ⟨fun c h => ?_, fun old new h => ?_, fun c h => ?_, fun old h => ?_,
    fun c pos h => ?_, fun old new h => ?_,
    fun c k orig h1 h2 h3 h4 h5 h6 =>
      append_to_file_failAfter cfg roc hash st p c cm k orig h1 h2 h3 h4 h5 h6⟩
  · rw [create_file_error_unchanged cfg wr roc hash st p c cm h]
  · rw [update_file_error_unchanged cfg wr roc hash st p old new cm h]
  · rw [rewrite_file_error_unchanged cfg wr roc hash st p c cm h]
  · rw [remove_from_file_error_unchanged cfg wr roc hash st p old cm h]
  · rw [insert_in_file_error_unchanged cfg wr roc hash st p c pos cm h]
  · rw [replace_all_in_file_error_unchanged cfg wr roc hash st p old new cm h]

/-- C1 amended, witness: a failing `create_file` (target already exists)
leaves the target as it was, and the in-place append with an injected
mid-write failure leaves exactly the flushed prefix appended. -/
theorem c1_amended_witness :
    (create_file cfg0 .success false hash0 { fs := fsA, git := some repo0 }
        "/work/a.txt" (chars "x") none).2.fs "/work/a.txt"
      = fsA "/work/a.txt"
    ∧ append_to_file cfg0 (.failAfter 1) false hash0
        { fs := fsA, git := some repo0 } "/work/a.txt" (chars "XY") none
      = (.error .writeFailed,
         { fs := fsA.update "/work/a.txt" (some (chars "hi" ++ (chars "XY").take 1)),
           git := some repo0 }) :=
  ⟨(c1_amended cfg0 .success false hash0 { fs := fsA, git := some repo0 }
      "/work/a.txt" none).1 (chars "x") (by decide),
   (c1_amended cfg0 (.failAfter 1) false hash0 { fs := fsA, git := some repo0 }
      "/work/a.txt" none).2.2.2.2.2.2 (chars "XY") 1 (chars "hi")
      (by decide) (by decide) (by decide) (by decide) (by decide) (by decide)⟩

/-- C2, counterexample.  The sandbox check of `is_safe_path` is a bare string
prefix test (`path.startswith(config.abs_working_dir)`), so with sandbox root
`/work` the absolute path `/workevil/secret` — which is *not* inside the
sandbox — passes validation and is returned, refuting both directions of the
claim at this input. -/
theorem c2_counterexample :
    sanitize_path (chars "/") (chars "/work") (chars "/workevil/secret")
      = .ok (chars "/workevil/secret")
    ∧ insideSandbox (chars "/work") (chars "/workevil/secret") = false := by
  decide

/-- C2, amended.  `sanitize_path` returns a path iff the stripped and
normalised absolute form passes the byte-prefix check against the sandbox
root: every returned path satisfies `is_safe_path`, and inputs whose
normalised form does not share the root as a string prefix — in particular
`../`-traversals escaping the root and absolute paths elsewhere — are
rejected with the out-of-sandbox error.  Because the check is a bare string
prefix without a separator, an outside path extending the root's last
component (see the counterexample) is nevertheless accepted. -/
theorem c2_amended :
    (∀ cwd root raw p : List Char,
       sanitize_path cwd root raw = .ok p → is_safe_path cwd root p = true)
    ∧ sanitize_path (chars "/") (chars "/work") (chars "../etc/passwd")
        = .error .outsideSandbox
    ∧ sanitize_path (chars "/") (chars "/work") (chars "/etc/passwd")
        = .error .outsideSandbox := by
  refine ⟨fun cwd root raw p h => ?_, by decide, by decide⟩
  unfold sanitize_path at h
  split at h
  · exact absurd h (by simp)
  · dsimp only at h
    split at h
    · split at h
      · cases h; assumption
      · exact absurd h (by simp)
    · split at h
      · cases h; assumption
      · exact absurd h (by simp)

/-- C2 amended, witness: a relative path validated against `/work` resolves
under the root and passes the prefix check. -/
theorem c2_amended_witness :
    is_safe_path (chars "/") (chars "/work") (chars "/work/a.txt") = true :=
  c2_amended.1 (chars "/") (chars "/work") (chars "a.txt")
    (chars "/work/a.txt") (by decide)

/-- C3, counterexample.  The classifier wired to the text-mutation gate is
`is_text_file` (called from `validate_operation`), and for a file named with
a `.txt` extension its MIME layer short-circuits to *text* before any byte
of content is examined — so a file whose content starts with the PNG magic
number is classified `is_text = true`, not `false` as claimed. -/
theorem c3_counterexample :
    is_text_file "a.txt" [0x89, 0x50, 0x4E, 0x47] = true := by
  decide

/-- C3, amended.  The gate classifier `is_text_file` reports *text* for a
PNG-magic file named `*.txt` (extension/MIME layers win); the magic-number
table lives only in `is_text_file_robust`, which no caller uses, and that
function indeed reports binary for any content starting with the PNG magic
regardless of the file's name. -/
theorem c3_amended :
    is_text_file "a.txt" [0x89, 0x50, 0x4E, 0x47] = true
    ∧ ∀ content : List Nat,
        [0x89, 0x50, 0x4E, 0x47].isPrefixOf content = true →
        is_text_file_robust content = false := by
  refine ⟨by decide, fun content h => ?_⟩
  have hpre : [0x89, 0x50, 0x4E, 0x47].isPrefixOf (content.take 512) = true := by
    rw [List.isPrefixOf_iff_prefix] at h ⊢
    obtain ⟨t, rfl⟩ := h
    rw [List.take_append_eq_append_take,
      show List.take 512 [0x89, 0x50, 0x4E, 0x47] = [0x89, 0x50, 0x4E, 0x47] from rfl]
    exact List.prefix_append _ _
  have hsig : has_binary_signature (content.take 512) = true := by
    unfold has_binary_signature
    rw [List.any_eq_true]
    exact ⟨[0x89, 0x50, 0x4E, 0x47], by decide, hpre⟩
  unfold is_text_file_robust
  split
  · rfl
  · simp [hsig]

/-- C3 amended, witness: evaluated on the four PNG magic bytes themselves. -/
theorem c3_amended_witness :
    is_text_file "a.txt" [0x89, 0x50, 0x4E, 0x47] = true
    ∧ is_text_file_robust [0x89, 0x50, 0x4E, 0x47] = false :=
  ⟨c3_amended.1, c3_amended.2 [0x89, 0x50, 0x4E, 0x47] (by decide)⟩

/-- C9, counterexample.  The size gate is `len(new_content) > MAX_FILE_SIZE`
on a Python `str`, which counts *characters*, not bytes.  The content
`'é'` followed by 3 495 253 copies of `'€'` occupies exactly
`MAX_FILE_SIZE + 1` bytes in UTF-8 (2 + 3·3 495 253), yet has only 3 495 254
characters, so `create_file` accepts it and writes it — refuting "content of
max_file_size + 1 bytes is rejected before anything is written". -/
theorem c9_counterexample :
    utf8ByteLength (Char.ofNat 0xE9 :: List.replicate 3495253 (Char.ofNat 0x20AC))
      = MAX_FILE_SIZE + 1
    ∧ (create_file cfgNoGit .success false hash0 { fs := emptyFs, git := none }
        "/work/big.txt"
        (Char.ofNat 0xE9 :: List.replicate 3495253 (Char.ofNat 0x20AC)) none).2.fs
        "/work/big.txt"
      = some (Char.ofNat 0xE9 :: List.replicate 3495253 (Char.ofNat 0x20AC)) := by
  constructor
  · rw [utf8ByteLength_cons, utf8ByteLength_replicate,
      show (utf8EncodeChar (Char.ofNat 0xE9)).length = 2 from by decide,
      show (utf8EncodeChar (Char.ofNat 0x20AC)).length = 3 from by decide]
    norm_num [MAX_FILE_SIZE]
  · exact create_file_fs _ _ _ _ _ _ _ (by decide) rfl
      (by rw [hasNul_cons, hasNul_replicate _ _ (by decide)]; decide)
      (by rw [List.length_cons, List.length_replicate]; norm_num [MAX_FILE_SIZE])

/-- C9, amended.  `create_file`'s size gate measures the content's character
count (`len` of the Python string), not its encoded byte size: content with
more than `MAX_FILE_SIZE` characters is rejected with the too-large error
before anything is written (the state is returned untouched), and content
with at most `MAX_FILE_SIZE` characters passes the gate — even when its
UTF-8 byte size exceeds the limit, as the counterexample shows. -/
theorem c9_amended (cfg : Config) (roc : Bool) (hash : List Nat → String)
    (st : OpState) (p : String) (c : List Char) (cm : Option String)
    (h1 : cfg.read_only = false) (h2 : st.fs p = none) (h3 : hasNul c = false) :
    (c.length > MAX_FILE_SIZE →
       create_file cfg .success roc hash st p c cm = (.error .tooLarge, st))
    ∧ (c.length ≤ MAX_FILE_SIZE →
       (create_file cfg .success roc hash st p c cm).1.isErr = false) := by
  constructor
  · intro hgt
    unfold create_file
    rw [h1, h2, h3]
    simp only [Option.isSome_none, Bool.false_eq_true, if_false, if_pos hgt]
  · intro hle
    rw [create_file_success cfg roc hash st p c cm h1 h2 h3 hle]
    rfl

/-- C9 amended, witness: a `MAX_FILE_SIZE + 1`-character content is rejected
with the state untouched, while a 2-character content passes the gate. -/
theorem c9_amended_witness :
    (create_file cfg0 .success false hash0 { fs := emptyFs, git := none }
       "/work/big.txt" (List.replicate (MAX_FILE_SIZE + 1) 'a') none)
      = (.error .tooLarge, { fs := emptyFs, git := none })
    ∧ (create_file cfg0 .success false hash0 { fs := emptyFs, git := none }
       "/work/a.txt" (chars "hi") none).1.isErr = false := by
  constructor
  · exact (c9_amended cfg0 false hash0 { fs := emptyFs, git := none }
      "/work/big.txt" (List.replicate (MAX_FILE_SIZE + 1) 'a') none
      (by decide) rfl (hasNul_replicate _ _ (by decide))).1
      (by rw [List.length_replicate]; omega)
  · exact (c9_amended cfg0 false hash0 { fs := emptyFs, git := none }
      "/work/a.txt" (chars "hi") none (by decide) rfl (by decide)).2 (by decide)

/-- C4, confirmed.  The checkpoint wrapper cannot fail the operation: it
catches every internal exception and returns at most an advisory string, it
never removes or rewrites an existing file (conjunct one, for any oracle
value and any repository state), and a `create_file` whose write succeeded
returns success with the wrapper's output attached as its note — the written
content stays on disk whatever the versioning layer did (conjunct two). -/
theorem c4_checkpoint_never_fatal :
    (∀ (cfg : Config) (roc : Bool) (fs : Fs) (gst : GitState) (path op : String)
       (cm : Option String) (q : String) (v : List Char),
       fs q = some v →
       (auto_commit_changes cfg roc fs gst path op cm).2.2 q = some v)
    ∧ (∀ (cfg : Config) (roc : Bool) (hash : List Nat → String) (st : OpState)
         (p : String) (c : List Char) (cm : Option String),
       cfg.read_only = false → st.fs p = none → hasNul c = false →
       c.length ≤ MAX_FILE_SIZE →
       ∃ r st', create_file cfg .success roc hash st p c cm = (.ok r, st')
         ∧ st'.fs p = some c
         ∧ r.commitNote = (auto_commit_changes cfg roc (st.fs.update p (some c))
             st.git p "create_file" cm).1) := by
  refine ⟨fun cfg roc fs gst path op cm q v h =>
      autoCommit_fs_preserves cfg roc fs gst path op cm q v h,
    fun cfg roc hash st p c cm h1 h2 h3 h4 => ?_⟩
  refine ⟨_, _, create_file_success cfg roc hash st p c cm h1 h2 h3 h4, ?_, rfl⟩
  exact autoCommit_fs_preserves _ _ _ _ _ _ _ _ _ (fs_update_self st.fs p (some c))

/-- C4, witness: with a failure injected into the commit step and a
repository present, the mutated file keeps its content and `create_file`
still succeeds. -/
theorem c4_witness :
    (auto_commit_changes cfg0 true fsA (some repo0) "/work/a.txt" "create_file"
        none).2.2 "/work/a.txt" = some (chars "hi")
    ∧ ∃ r st', create_file cfg0 .success true hash0
        { fs := fsA, git := some repo0 } "/work/b.txt" (chars "yo") none
        = (.ok r, st')
      ∧ st'.fs "/work/b.txt" = some (chars "yo")
      ∧ r.commitNote = (auto_commit_changes cfg0 true
          (fsA.update "/work/b.txt" (some (chars "yo"))) (some repo0)
          "/work/b.txt" "create_file" none).1 :=
  ⟨c4_checkpoint_never_fatal.1 cfg0 true fsA (some repo0) "/work/a.txt"
      "create_file" none "/work/a.txt" (chars "hi") (by decide),
   c4_checkpoint_never_fatal.2 cfg0 true hash0 { fs := fsA, git := some repo0 }
      "/work/b.txt" (chars "yo") none (by decide) (by decide) (by decide)
      (by decide)⟩

/-- C5, code bug.  With auto-commit on and no repository anywhere above the
mutated file, `auto_commit_changes` does initialise a repository at the
file's directory — identity set, ignore file seeded — but the mutation is
*not* then staged and committed: the source never rebinds the local `repo`
after `init_repo`, so the next line raises `UnboundLocalError`, the blanket
handler turns it into the advisory "Auto-commit failed: …", and the call
returns with zero commits in the fresh repository instead of the commit
result the claim (and the spec's locate-or-init contract) describes. -/
theorem c5_code_bug :
    (auto_commit_changes cfg0 false fsA none "/work/a.txt" "create_file" none).1
      = some autoCommitUnboundMsg
    ∧ (auto_commit_changes cfg0 false fsA none "/work/a.txt" "create_file" none).2.1
      = some { root := "/work", userName := "FileOps MCP",
               userEmail := "fileops-mcp@no-reply.local", index := [], head := [],
               commits := 0, lastMessage := none }
    ∧ (auto_commit_changes cfg0 false fsA none "/work/a.txt" "create_file" none).2.2
        "/work/.gitignore" = some defaultGitignore
    ∧ (auto_commit_changes cfg0 false fsA none "/work/a.txt" "create_file" none).2.2
        "/work/a.txt" = some (chars "hi") := by
  decide

/-- C6, confirmed.  Once a commit (or an already-clean skip) has recorded the
staged content of a path, invoking `commit_file` again with the working tree
unchanged stages a byte-identical index, `is_dirty` is false, and the call
returns "No changes to commit" with the repository state — including the
commit counter — untouched: committing the same content twice in a row
creates at most one commit, and the second call yields the skip with no new
commit id.  (The hypotheses say the path sits under the repository root with
its content on disk, and every other tracked file matches the working tree —
the claim's "working tree is clean after staging".) -/
theorem c6_noop_checkpoint (cfg : Config) (fs : Fs) (stg : GitState)
    (repo : Repo) (path : String) (content : List Char)
    (m1 m2 op1 op2 : Option String)
    (hen : cfg.git_enabled = true)
    (hget : get_repo cfg stg path = .ok repo)
    (hjoin : joinUnder repo.root (relPath repo.root path) = path)
    (hfs : fs path = some content)
    (hidx : ∀ kv ∈ repo.index, fs (joinUnder repo.root kv.1) = some kv.2) :
    ∃ s1 repo1,
      commit_file cfg false fs stg path m1 op1 = .ok (s1, some repo1)
      ∧ repo1.commits ≤ repo.commits + 1
      ∧ commit_file cfg false fs (some repo1) path m2 op2
          = .ok ("No changes to commit", some repo1) := by
  have hstep : stg = some repo ∧ underRoot repo.root path = true := by
    unfold get_repo at hget
    rw [if_neg (by simp [hen])] at hget
    cases stg with
    | none => cases hget
    | some r =>
      dsimp only at hget
      by_cases hu : underRoot r.root path = true
      · rw [if_pos hu] at hget
        cases hget
        exact ⟨rfl, hu⟩
      · rw [if_neg hu] at hget
        cases hget
  obtain ⟨rfl, hroot⟩ := hstep
  have hg : get_repo cfg (some repo) path = .ok repo := by
    unfold get_repo; simp [hen, hroot]
  have hwAll : ∀ kv ∈ setAssoc repo.index (relPath repo.root path) content,
      fs (joinUnder repo.root kv.1) = some kv.2 := by
    intro kv hkv
    rcases mem_setAssoc _ _ _ kv hkv with h | h
    · cases h
      rw [hjoin]
      exact hfs
    · exact hidx kv h
  by_cases hd : isDirty fs
      { repo with index := setAssoc repo.index (relPath repo.root path) content }
      = false
  · refine ⟨"No changes to commit",
      { repo with index := setAssoc repo.index (relPath repo.root path) content },
      ?_, Nat.le_succ _, ?_⟩
    · unfold commit_file
      rw [if_neg (by simp [hen]), hg]
      dsimp only
      rw [if_neg (by simp), hfs]
      dsimp only
      rw [if_pos hd]
    · exact commit_file_clean_skip cfg fs _ path content m2 op2 hen hroot hfs
        (setAssoc_setAssoc _ _ _) hd
  · refine ⟨(if repo.index.all (fun kv => decide (kv.1 ≠ relPath repo.root path))
        then "Added" else "Updated") ++ " and committed "
        ++ relPath repo.root path ++ ": " ++ toString (repo.commits + 1),
      { repo with
        index := setAssoc repo.index (relPath repo.root path) content
        head := setAssoc repo.index (relPath repo.root path) content
        commits := repo.commits + 1
        lastMessage := some (m1.getD (formatCommitMessage op1 (relPath repo.root path))) },
      ?_, Nat.le_refl _, ?_⟩
    · unfold commit_file
      rw [if_neg (by simp [hen]), hg]
      dsimp only
      rw [if_neg (by simp), hfs]
      dsimp only
      rw [if_neg hd]
    · exact commit_file_clean_skip cfg fs _ path content m2 op2 hen hroot hfs
        (setAssoc_setAssoc _ _ _)
        (isDirty_false_of fs _ rfl hwAll)

/-- C6, witness: committing `hi` at `/work/a.txt` twice against a fresh
repository — one commit, then a reported skip. -/
theorem c6_noop_checkpoint_witness :
    ∃ s1 repo1,
      commit_file cfg0 false fsA (some repo0) "/work/a.txt" none
          (some "create_file") = .ok (s1, some repo1)
      ∧ repo1.commits ≤ repo0.commits + 1
      ∧ commit_file cfg0 false fsA (some repo1) "/work/a.txt" none
          (some "update_file") = .ok ("No changes to commit", some repo1) :=
  c6_noop_checkpoint cfg0 fsA (some repo0) repo0 "/work/a.txt" (chars "hi")
    none none (some "create_file") (some "update_file") (by decide) (by decide)
    (by decide) (by decide) (by intro kv hkv; simp [repo0] at hkv)

/-- C7, confirmed.  `move_file` renames directly when `os.rename` succeeds
(the fallback never runs); only when the rename raises an `OSError` does it
copy and verify size plus checksum against the source: a verification
mismatch removes the destination, leaves the source intact and reports
failure, a mid-copy exception likewise leaves both files as they were, and a
successful verification completes the move.  (The hypothesis that a
repository already covers `dst` pins the checkpoint step so that it cannot
touch the filesystem; the wrapper is exercised separately in C4/C5.) -/
theorem c7_move_file (cfg : Config) (env : MoveEnv) (roc : Bool)
    (hash : List Nat → String) (st : OpState) (src dst : String)
    (cm : Option String) (srcContent : List Char) (repo : Repo)
    (h1 : cfg.read_only = false) (h2 : st.fs src = some srcContent)
    (h3 : st.fs dst = none) (h4 : src ≠ dst)
    (h5 : st.git = some repo) (h6 : underRoot repo.root dst = true) :
    (env.renameOk = true →
       ∃ r st', move_file cfg env roc hash st src dst cm = (.ok r, st')
         ∧ st'.fs dst = some srcContent ∧ st'.fs src = none)
    ∧ (env.renameOk = false → env.copyOutcome = .raisesMidWrite →
       move_file cfg env roc hash st src dst cm = (.error .moveFailed, st))
    ∧ (∀ actual, env.renameOk = false → env.copyOutcome = .writes actual →
       (utf8ByteLength srcContent ≠ utf8ByteLength actual
         ∨ hash (utf8Encode srcContent) ≠ hash (utf8Encode actual)) →
       (move_file cfg env roc hash st src dst cm).1 = .error .moveFailed
       ∧ (move_file cfg env roc hash st src dst cm).2.fs src = some srcContent
       ∧ (move_file cfg env roc hash st src dst cm).2.fs dst = none)
    ∧ (∀ actual, env.renameOk = false → env.copyOutcome = .writes actual →
       utf8ByteLength srcContent = utf8ByteLength actual →
       hash (utf8Encode srcContent) = hash (utf8Encode actual) →
       ∃ r st', move_file cfg env roc hash st src dst cm = (.ok r, st')
         ∧ st'.fs dst = some actual ∧ st'.fs src = none) := by
  refine ⟨?_, ?_, ?_, ?_⟩
  · intro hr
    unfold move_file
    rw [h1, h2, h3, hr]
    simp only [Option.isSome_none, Bool.false_eq_true, if_false, if_true]
    refine ⟨_, _, rfl, ?_, ?_⟩
    · show (auto_commit_changes cfg roc ((st.fs.update src none).update dst (some srcContent))
          st.git dst "move_file" cm).2.2 dst = some srcContent
      rw [h5, autoCommit_fs_of_repo cfg roc _ repo dst "move_file" cm h6]
      exact fs_update_self _ _ _
    · show (auto_commit_changes cfg roc ((st.fs.update src none).update dst (some srcContent))
          st.git dst "move_file" cm).2.2 src = none
      rw [h5, autoCommit_fs_of_repo cfg roc _ repo dst "move_file" cm h6,
        fs_update_other _ _ _ _ h4, fs_update_self]
  · intro hr hc
    unfold move_file
    rw [h1, h2, h3, hr, hc]
    simp
  · intro actual hr hc hne
    unfold move_file
    rw [h1, h2, h3, hr, hc]
    dsimp only
    simp only [Option.isSome_none, Bool.false_eq_true, if_false]
    rw [if_pos hne]
    refine ⟨rfl, ?_, ?_⟩
    · show ((st.fs.update dst (some actual)).update dst none) src = some srcContent
      rw [fs_update_other _ _ _ _ h4, fs_update_other _ _ _ _ h4, h2]
    · exact fs_update_self _ _ _
  · intro actual hr hc hsz hck
    unfold move_file
    rw [h1, h2, h3, hr, hc]
    dsimp only
    simp only [Option.isSome_none, Bool.false_eq_true, if_false]
    rw [if_neg (by rw [hsz, hck]; simp)]
    refine ⟨_, _, rfl, ?_, ?_⟩
    · show (auto_commit_changes cfg roc ((st.fs.update dst (some actual)).update src none)
          st.git dst "move_file" cm).2.2 dst = some actual
      rw [h5, autoCommit_fs_of_repo cfg roc _ repo dst "move_file" cm h6,
        fs_update_other _ _ _ _ (Ne.symm h4), fs_update_self]
    · show (auto_commit_changes cfg roc ((st.fs.update dst (some actual)).update src none)
          st.git dst "move_file" cm).2.2 src = none
      rw [h5, autoCommit_fs_of_repo cfg roc _ repo dst "move_file" cm h6, fs_update_self]

/-- C7, witness: with the rename refused and a corrupted (shorter) copy, the
destination is removed, the source keeps its content, and the call fails. -/
theorem c7_move_file_witness :
    ((move_file cfg0 { renameOk := false, copyOutcome := .writes (chars "h") }
        false hash0 { fs := fsA, git := some repo0 } "/work/a.txt" "/work/b.txt"
        none).1 = .error .moveFailed
     ∧ (move_file cfg0 { renameOk := false, copyOutcome := .writes (chars "h") }
        false hash0 { fs := fsA, git := some repo0 } "/work/a.txt" "/work/b.txt"
        none).2.fs "/work/a.txt" = some (chars "hi")
     ∧ (move_file cfg0 { renameOk := false, copyOutcome := .writes (chars "h") }
        false hash0 { fs := fsA, git := some repo0 } "/work/a.txt" "/work/b.txt"
        none).2.fs "/work/b.txt" = none) :=
  (c7_move_file cfg0 { renameOk := false, copyOutcome := .writes (chars "h") }
      false hash0 { fs := fsA, git := some repo0 } "/work/a.txt" "/work/b.txt"
      none (chars "hi") repo0 (by decide) (by decide) (by decide) (by decide)
      rfl (by decide)).2.2.1 (chars "h") rfl rfl (by decide)

/-- C8, counterexample.  The round-trip does not hold for *every* NUL-free,
size-bounded text content: `create_file` never runs the text classifier, but
`read_file` does, so content that the classifier's printable-ratio heuristic
scores as binary — here four `'€'` characters at the extension-less path
`/work/b` — is written successfully and then refused by `read_file`. -/
theorem c8_counterexample :
    ((create_file cfgNoGit .success false hash0 { fs := emptyFs, git := none }
        "/work/b" (List.replicate 4 (Char.ofNat 0x20AC)) none).2.fs "/work/b"
      = some (List.replicate 4 (Char.ofNat 0x20AC)))
    ∧ read_file hash0
        (create_file cfgNoGit .success false hash0 { fs := emptyFs, git := none }
          "/work/b" (List.replicate 4 (Char.ofNat 0x20AC)) none).2.fs
        "/work/b" none none
      = .error .binaryFile := by
  decide

/-- C8, amended.  For every validated fresh path and NUL-free content within
the character-size limit, `create_file` succeeds, the file then holds exactly
`c`, and the reported checksum is the hash of the bytes re-read from disk,
which are the UTF-8 image of `c`; the subsequent `read_file` returns exactly
`c` provided the on-disk bytes pass the text classifier at that path (and the
read-path byte-size limit) — without that proviso the read can be refused as
binary, as the counterexample shows. -/
theorem c8_amended (cfg : Config) (roc : Bool) (hash : List Nat → String)
    (st : OpState) (p : String) (c : List Char) (cm : Option String)
    (h1 : cfg.read_only = false) (h2 : st.fs p = none)
    (h3 : hasNul c = false) (h4 : c.length ≤ MAX_FILE_SIZE) :
    ∃ r st', create_file cfg .success roc hash st p c cm = (.ok r, st')
      ∧ st'.fs p = some c
      ∧ r.checksum = hash (utf8Encode c)
      ∧ (is_text_file p (utf8Encode c) = true →
         utf8ByteLength c ≤ MAX_FILE_SIZE →
         read_file hash st'.fs p none none
           = .ok { size := utf8ByteLength c, checksum := hash (utf8Encode c),
                   lineInfo := none, content := c }) := by
  refine ⟨_, _, create_file_success cfg roc hash st p c cm h1 h2 h3 h4, ?_, ?_, ?_⟩
  · exact autoCommit_fs_preserves _ _ _ _ _ _ _ _ _ (fs_update_self st.fs p (some c))
  · show (generate_checksum hash (st.fs.update p (some c)) p).getD "" = _
    unfold generate_checksum
    rw [fs_update_self]
    rfl
  · intro htext hsize
    have hfsp : (commitStep cfg roc { st with fs := st.fs.update p (some c) }
        p "create_file" cm).2.fs p = some c :=
      autoCommit_fs_preserves _ _ _ _ _ _ _ _ _ (fs_update_self st.fs p (some c))
    have hnl : ¬(utf8ByteLength c > MAX_FILE_SIZE) := by omega
    unfold read_file
    rw [hfsp]
    simp only [htext, Bool.true_eq_false, if_false, if_neg hnl]

/-- C8 amended, witness: creating `/work/a.txt` with content `hi` and reading
it back. -/
theorem c8_amended_witness :
    ∃ r st', create_file cfg0 .success false hash0 { fs := emptyFs, git := none }
        "/work/a.txt" (chars "hi") none = (.ok r, st')
      ∧ st'.fs "/work/a.txt" = some (chars "hi")
      ∧ r.checksum = hash0 (utf8Encode (chars "hi"))
      ∧ (is_text_file "/work/a.txt" (utf8Encode (chars "hi")) = true →
         utf8ByteLength (chars "hi") ≤ MAX_FILE_SIZE →
         read_file hash0 st'.fs "/work/a.txt" none none
           = .ok { size := utf8ByteLength (chars "hi"),
                   checksum := hash0 (utf8Encode (chars "hi")),
                   lineInfo := none, content := chars "hi" }) :=
  c8_amended cfg0 false hash0 { fs := emptyFs, git := none } "/work/a.txt"
    (chars "hi") none (by decide) rfl (by decide) (by decide)

/-- C10, confirmed.  An empty (zero-byte) file whose extension is not on the
binary deny-list and whose guessed MIME type is not image/audio/video is
classified as text by `is_text_file`: the content heuristic treats an empty
sample as text, and every other reachable layer answers text or falls
through to it. -/
theorem c10_empty_file_is_text (path : String)
    (hext : binary_extensions.contains (fileExt path.data) = false)
    (hmime : (guess_type path.data).all
      (fun m => !((chars "image/").isPrefixOf m || (chars "audio/").isPrefixOf m
                  || (chars "video/").isPrefixOf m)) = true) :
    is_text_file path [] = true := by
  unfold is_text_file
  rw [hext]
  cases hg : guess_type path.data with
  | none => decide
  | some m =>
    rw [hg] at hmime
    simp only [Option.all_some, Bool.not_eq_true'] at hmime
    simp only [Bool.false_eq_true, if_false]
    split
    · rfl
    · rw [hmime]
      decide

/-- C10, witness: an empty `.json` file (MIME `application/json`, not a media
type) is classified text. -/
theorem c10_witness : is_text_file "a.json" [] = true :=
  c10_empty_file_is_text "a.json" (by decide) (by decide)

end FileOps
